import Mathlib

/-!
Shallow embedding of the FullBodiedPlugin timeline runtime
(`src/src/ActorManager.cpp` and its header `src/src/ActorManager.h`).

Floats of the source are modelled as rationals (`ℚ`); the `uint64_t`
generation token is a `Nat` reduced modulo `2 ^ 64`; the unordered
containers are modelled as association lists (a fixed, faithful
iteration order), and the `unordered_set` touched sets as duplicate-free
`List String` values grown by first-occurrence insertion.  Calls into
the external collaborators (`FB::Scaler::SetNodeScale`,
`FB::Morph::AddDelta`, `FB::Morph::ResetAllForActor`) are recorded in an
append-only trace.
-/

namespace FBSpec

/-- Modulus of the C++ `std::uint64_t` token counter. -/
def U64 : Nat := 2 ^ 64

/-- Model of `RE::ActorHandle`: `valid` is what `operator bool` reports
(the handle holds a value), `live` says whether `get()` resolves to a
loaded actor, `formID` is the actor's form ID. -/
structure ActorHandle where
  valid : Bool
  live : Bool
  formID : Nat
deriving DecidableEq, Repr

/-- `RE::ActorHandle{}` — the default, empty handle. -/
def ActorHandle.empty : ActorHandle := ⟨false, false, 0⟩

/-- `operator bool` of the handle. -/
def ActorHandle.isSet (h : ActorHandle) : Bool := h.valid

/-- `handle.get()`: the `NiPointer`, `none` when empty or unloaded. -/
def ActorHandle.deref (h : ActorHandle) : Option Nat :=
  if h.valid && h.live then some h.formID else none

/-- `FB::TargetKind`. -/
inductive TargetKind
  | kCaster
  | kTarget
deriving DecidableEq, Repr

/-- `FB::CommandKind`. -/
inductive CommandKind
  | kScale
  | kMorph
  | kHide
deriving DecidableEq, Repr

/-- `FB::TweenCurve` (only linear exists). -/
inductive TweenCurve
  | kLinear
deriving DecidableEq, Repr

/-- `FB::HideMode`. -/
inductive HideMode
  | kAll
  | kSlot
deriving DecidableEq, Repr

/-- `FB::TimedCommand` (ActorManager.h). -/
structure TimedCommand where
  kind : CommandKind := .kScale
  target : TargetKind := .kCaster
  timeSeconds : ℚ := 0
  nodeKey : String := ""
  scale : ℚ := 1
  morphName : String := ""
  delta : ℚ := 0
  tweenSeconds : ℚ := 0
  tweenCurve : TweenCurve := .kLinear
  hideMode : HideMode := .kAll
  hideSlot : Nat := 0
  hide : Bool := false
deriving DecidableEq, Repr

/-- `ActorRuntimeState` of ActorManager.cpp: per-caster token, last
resolved target, and the touched bookkeeping. -/
structure ActorRuntimeState where
  token : Nat := 0
  lastTarget : ActorHandle := .empty
  casterTouchedScale : List String := []
  targetTouchedScale : List String := []
  casterTouchedMorph : Bool := false
  targetTouchedMorph : Bool := false
deriving DecidableEq, Repr

/-- `unordered_set::insert`: add the key if it is not yet present. -/
def insertOnce (xs : List String) (x : String) : List String :=
  if x ∈ xs then xs else xs ++ [x]

/-- `ActiveTimeline` of ActorManager.cpp. -/
structure ActiveTimeline where
  caster : ActorHandle := .empty
  target : ActorHandle := .empty
  casterFormID : Nat := 0
  token : Nat := 0
  logOps : Bool := false
  elapsedSeconds : ℚ := 0
  nextIndex : Nat := 0
  commands : List TimedCommand := []
deriving DecidableEq, Repr

/-- `ActiveTween` of ActorManager.cpp. -/
structure ActiveTween where
  actor : ActorHandle := .empty
  actorFormID : Nat := 0
  casterFormID : Nat := 0
  token : Nat := 0
  who : TargetKind := .kCaster
  morphName : String := ""
  totalDelta : ℚ := 0
  appliedSoFar : ℚ := 0
  durationSeconds : ℚ := 0
  elapsedSeconds : ℚ := 0
  touchedMarked : Bool := false
deriving DecidableEq, Repr

/-- One recorded call into an external collaborator. -/
inductive MutCall
  | setNodeScale (actor : ActorHandle) (nodeKey : String) (scale : ℚ)
  | addDelta (actor : ActorHandle) (morphName : String) (delta : ℚ)
  | resetAllForActor (actor : ActorHandle)
deriving DecidableEq, Repr

/-- The whole mutable state of ActorManager.cpp: `g_state`,
`g_activeTimelines`, `g_activeTweens` (keyed by
`(actorFormID, morphName)`), plus the trace of collaborator calls. -/
structure GState where
  state : Nat → Option ActorRuntimeState
  timelines : List (Nat × ActiveTimeline)
  tweens : List (Nat × String × ActiveTween)
  trace : List MutCall

/-- `g_state[fid]` as read after the map's value-initialisation. -/
def getState (s : GState) (fid : Nat) : ActorRuntimeState :=
  (s.state fid).getD {}

/-- Store an entry of `g_state`. -/
def setState (s : GState) (fid : Nat) (st : ActorRuntimeState) : GState :=
  { s with state := fun k => if k = fid then some st else s.state k }

/-- Record one collaborator call. -/
def emit (s : GState) (c : MutCall) : GState :=
  { s with trace := s.trace ++ [c] }

/-- `BumpToken` (ActorManager.cpp): increment the caster's token and
clear all touched bookkeeping; returns the new token. -/
def bumpToken (casterFormID : Nat) (s : GState) : Nat × GState :=
  let st := getState s casterFormID
  let st' : ActorRuntimeState :=
    { st with
      token := (st.token + 1) % U64
      casterTouchedScale := []
      targetTouchedScale := []
      casterTouchedMorph := false
      targetTouchedMorph := false }
  (st'.token, setState s casterFormID st')

/-- `IsTokenCurrent`: true only if the caster has an entry whose token
equals the presented one. -/
def isTokenCurrent (s : GState) (casterFormID tok : Nat) : Bool :=
  match s.state casterFormID with
  | none => false
  | some st => st.token == tok

/-- `SetLastTarget`. -/
def setLastTarget (casterFormID : Nat) (target : ActorHandle) (s : GState) : GState :=
  setState s casterFormID { getState s casterFormID with lastTarget := target }

/-- `MarkTouchedScale`. -/
def markTouchedScale (casterFormID : Nat) (who : TargetKind) (nodeKey : String)
    (s : GState) : GState :=
  let st := getState s casterFormID
  let st' :=
    match who with
    | .kCaster => { st with casterTouchedScale := insertOnce st.casterTouchedScale nodeKey }
    | .kTarget => { st with targetTouchedScale := insertOnce st.targetTouchedScale nodeKey }
  setState s casterFormID st'

/-- `MarkTouchedMorph`. -/
def markTouchedMorph (casterFormID : Nat) (who : TargetKind) (s : GState) : GState :=
  let st := getState s casterFormID
  let st' :=
    match who with
    | .kCaster => { st with casterTouchedMorph := true }
    | .kTarget => { st with targetTouchedMorph := true }
  setState s casterFormID st'

/-- `ResetSnapshot` of ActorManager.cpp. -/
structure ResetSnapshot where
  lastTarget : ActorHandle := .empty
  casterScale : List String := []
  targetScale : List String := []
  casterMorph : Bool := false
  targetMorph : Bool := false
deriving DecidableEq, Repr

/-- `TakeSnapshot`: move the touched bookkeeping out of the caster's
state (clearing it there) together with the last target. -/
def takeSnapshot (casterFormID : Nat) (s : GState) : ResetSnapshot × GState :=
  let st := getState s casterFormID
  let snap : ResetSnapshot :=
    { lastTarget := st.lastTarget
      casterScale := st.casterTouchedScale
      targetScale := st.targetTouchedScale
      casterMorph := st.casterTouchedMorph
      targetMorph := st.targetTouchedMorph }
  let st' : ActorRuntimeState :=
    { st with
      casterTouchedScale := []
      targetTouchedScale := []
      casterTouchedMorph := false
      targetTouchedMorph := false }
  (snap, setState s casterFormID st')

/-- `ResolveActor`. -/
def resolveActor (tl : ActiveTimeline) (who : TargetKind) : ActorHandle :=
  match who with
  | .kCaster => tl.caster
  | .kTarget => tl.target

/-- `ExecuteScale`: no-op for an empty handle, else call the scaler and
mark the node touched for the command's role. -/
def executeScale (casterFormID : Nat) (actor : ActorHandle) (cmd : TimedCommand)
    (_logOps : Bool) (s : GState) : GState :=
  if actor.isSet then
    markTouchedScale casterFormID cmd.target cmd.nodeKey
      (emit s (.setNodeScale actor cmd.nodeKey cmd.scale))
  else s

/-- `ExecuteMorphInstant`. -/
def executeMorphInstant (casterFormID : Nat) (actor : ActorHandle) (cmd : TimedCommand)
    (_logOps : Bool) (s : GState) : GState :=
  if actor.isSet then
    markTouchedMorph casterFormID cmd.target
      (emit s (.addDelta actor cmd.morphName cmd.delta))
  else s

/-- Insert or replace the tween stored under `key` (the semantics of
`g_activeTweens[key] = tw`). -/
def insertTween (key : Nat × String) (tw : ActiveTween) :
    List (Nat × String × ActiveTween) → List (Nat × String × ActiveTween)
  | [] => [(key.1, key.2, tw)]
  | (a, m, old) :: rest =>
    if a = key.1 ∧ m = key.2 then (a, m, tw) :: rest
    else (a, m, old) :: insertTween key tw rest

/-- `ScheduleMorphTween`: resolve the command's actor; if the handle is
set and live, store a fresh tween under `(actorFormID, morphName)`,
replacing any existing one. -/
def scheduleMorphTween (tl : ActiveTimeline) (cmd : TimedCommand) (s : GState) : GState :=
  let actor := resolveActor tl cmd.target
  if actor.isSet then
    match actor.deref with
    | none => s
    | some afid =>
      let tw : ActiveTween :=
        { actor := actor
          actorFormID := afid
          casterFormID := tl.casterFormID
          token := tl.token
          who := cmd.target
          morphName := cmd.morphName
          totalDelta := cmd.delta
          appliedSoFar := 0
          durationSeconds := cmd.tweenSeconds
          elapsedSeconds := 0
          touchedMarked := false }
      { s with tweens := insertTween (afid, cmd.morphName) tw s.tweens }
  else s

/-- `ClearTweensForCaster`. -/
def clearTweensForCaster (casterFormID : Nat)
    (l : List (Nat × String × ActiveTween)) : List (Nat × String × ActiveTween) :=
  l.filter fun p => decide (p.2.2.casterFormID ≠ casterFormID)

/-- One command of the due-command loop inside `Update` (the body of the
`while` over `tl.commands[tl.nextIndex]`). -/
def execCommand (tl : ActiveTimeline) (s : GState) (cmd : TimedCommand) : GState :=
  let actorHandle := resolveActor tl cmd.target
  match cmd.kind with
  | .kScale => executeScale tl.casterFormID actorHandle cmd tl.logOps s
  | .kMorph =>
    if cmd.tweenSeconds > 0 then scheduleMorphTween tl cmd s
    else executeMorphInstant tl.casterFormID actorHandle cmd tl.logOps s
  | .kHide => s

/-- Execute a batch of commands in order. -/
def execList (tl : ActiveTimeline) : GState → List TimedCommand → GState
  | s, [] => s
  | s, cmd :: rest => execList tl (execCommand tl s cmd) rest

/-- The due-command `while` loop of `Update`: starting at cursor `idx`
over the remaining commands, consume commands until one is not yet due
(`cmd.timeSeconds > tl.elapsedSeconds`), returning the new state and
cursor. -/
def runFrom (tl : ActiveTimeline) : GState → Nat → List TimedCommand → GState × Nat
  | s, idx, [] => (s, idx)
  | s, idx, cmd :: rest =>
    if tl.elapsedSeconds < cmd.timeSeconds then (s, idx)
    else runFrom tl (execCommand tl s cmd) (idx + 1) rest

/-- Per-timeline step of `Update` phase 1: drop the timeline if its
token is stale, otherwise advance elapsed time, run the due commands,
and drop the timeline once its cursor has consumed every command. -/
def stepTimeline (dt : ℚ) (s : GState) (tl : ActiveTimeline) :
    GState × Option ActiveTimeline :=
  if isTokenCurrent s tl.casterFormID tl.token then
    let tl' := { tl with elapsedSeconds := tl.elapsedSeconds + dt }
    let r := runFrom tl' s tl'.nextIndex (tl'.commands.drop tl'.nextIndex)
    let tl'' := { tl' with nextIndex := r.2 }
    if tl''.commands.length ≤ tl''.nextIndex then (r.1, none) else (r.1, some tl'')
  else (s, none)

/-- Phase 1 of `Update`: iterate the active timelines, keeping the
surviving entries in order. -/
def timelinePass (dt : ℚ) : GState → List (Nat × ActiveTimeline) → GState
  | s, [] => s
  | s, (fid, tl) :: rest =>
    let r := stepTimeline dt s tl
    let s' :=
      match r.2 with
      | none => r.1
      | some tl' => { r.1 with timelines := r.1.timelines ++ [(fid, tl')] }
    timelinePass dt s' rest

def updateTimelines (dt : ℚ) (s : GState) : GState :=
  timelinePass dt { s with timelines := [] } s.timelines

/-- `std::clamp`. -/
def clampQ (v lo hi : ℚ) : ℚ :=
  if v < lo then lo else if hi < v then hi else v

/-- Per-tween step of `Update` phase 2: drop the tween if its token is
stale, its actor handle is empty or dead, or its duration is not
positive; otherwise advance it, apply the incremental step when it is
non-zero (marking the morph touched on the first application), and drop
it once `alpha ≥ 1`. -/
def stepTween (dt : ℚ) (s : GState) (tw : ActiveTween) : GState × Option ActiveTween :=
  if isTokenCurrent s tw.casterFormID tw.token then
    if tw.actor.isSet then
      match tw.actor.deref with
      | none => (s, none)
      | some _ =>
        if tw.durationSeconds ≤ 0 then (s, none)
        else
          let tw' := { tw with elapsedSeconds := tw.elapsedSeconds + dt }
          let alpha := clampQ (tw'.elapsedSeconds / tw'.durationSeconds) 0 1
          let targetApplied := tw'.totalDelta * alpha
          let stepDelta := targetApplied - tw'.appliedSoFar
          let p :=
            if stepDelta ≠ 0 then
              let s1 := emit s (.addDelta tw'.actor tw'.morphName stepDelta)
              let p2 :=
                if !tw'.touchedMarked then
                  (markTouchedMorph tw'.casterFormID tw'.who s1,
                    { tw' with touchedMarked := true })
                else (s1, tw')
              (p2.1, { p2.2 with appliedSoFar := targetApplied })
            else (s, tw')
          if 1 ≤ alpha then (p.1, none) else (p.1, some p.2)
    else (s, none)
  else (s, none)

/-- Phase 2 of `Update`: iterate the active tweens, keeping the
surviving entries in order. -/
def tweenPass (dt : ℚ) : GState → List (Nat × String × ActiveTween) → GState
  | s, [] => s
  | s, (afid, mn, tw) :: rest =>
    let r := stepTween dt s tw
    let s' :=
      match r.2 with
      | none => r.1
      | some tw' => { r.1 with tweens := r.1.tweens ++ [(afid, mn, tw')] }
    tweenPass dt s' rest

def updateTweens (dt : ℚ) (s : GState) : GState :=
  tweenPass dt { s with tweens := [] } s.tweens

/-- `kMaxDtSeconds` of ActorManager.cpp. -/
def kMaxDtSeconds : ℚ := 1 / 4

/-- `FB::ActorManager::Update`. -/
def update (dtSeconds : ℚ) (s : GState) : GState :=
  if dtSeconds ≤ 0 then s
  else
    let dt := if dtSeconds > kMaxDtSeconds then kMaxDtSeconds else dtSeconds
    updateTweens dt (updateTimelines dt s)

/-- Insert or replace the timeline stored under `fid`
(`g_activeTimelines[fid] = tl`). -/
def insertTimeline (fid : Nat) (tl : ActiveTimeline) :
    List (Nat × ActiveTimeline) → List (Nat × ActiveTimeline)
  | [] => [(fid, tl)]
  | (k, old) :: rest =>
    if k = fid then (k, tl) :: rest else (k, old) :: insertTimeline fid tl rest

/-- `FB::ActorManager::StartTimeline`. -/
def startTimeline (caster target : ActorHandle) (casterFormID : Nat)
    (commands : List TimedCommand) (logOps : Bool) (s : GState) : GState :=
  if caster.isSet then
    let r := bumpToken casterFormID s
    let s1 := setLastTarget casterFormID target r.2
    let tl : ActiveTimeline :=
      { caster := caster
        target := target
        casterFormID := casterFormID
        token := r.1
        logOps := logOps
        elapsedSeconds := 0
        nextIndex := 0
        commands := commands }
    { s1 with timelines := insertTimeline casterFormID tl s1.timelines }
  else s

/-- Emit one scale-restore call (scale back to 1.0) per node in order. -/
def emitScaleResets (h : ActorHandle) : GState → List String → GState
  | s, [] => s
  | s, n :: rest => emitScaleResets h (emit s (.setNodeScale h n 1)) rest

/-- `FB::ActorManager::CancelAndReset`. -/
def cancelAndReset (caster : ActorHandle) (casterFormID : Nat)
    (logOps resetMorphCaster resetMorphTarget : Bool) (s : GState) : GState :=
  let s1 := (bumpToken casterFormID s).2
  let s2 := { s1 with timelines := s1.timelines.filter fun p => decide (p.1 ≠ casterFormID) }
  let s3 := { s2 with tweens := clearTweensForCaster casterFormID s2.tweens }
  let r := takeSnapshot casterFormID s3
  let snap := r.1
  let s4 := r.2
  let s5 :=
    if caster.isSet then
      let sa := emitScaleResets caster s4 snap.casterScale
      if resetMorphCaster then emit sa (.resetAllForActor caster) else sa
    else s4
  let s6 :=
    if snap.lastTarget.isSet then
      let sb := emitScaleResets snap.lastTarget s5 snap.targetScale
      if resetMorphTarget then emit sb (.resetAllForActor snap.lastTarget) else sb
    else s5
  s6

/-! ### Derived observation functions over the embedding -/

/-- Keys of the active-tween table, in table order. -/
def twKeys (l : List (Nat × String × ActiveTween)) : List (Nat × String) :=
  l.map fun p => (p.1, p.2.1)

/-- Lookup in the active-tween table (`g_activeTweens.find`). -/
def lookupTween (key : Nat × String) :
    List (Nat × String × ActiveTween) → Option ActiveTween
  | [] => none
  | (a, m, tw) :: rest => if a = key.1 ∧ m = key.2 then some tw else lookupTween key rest

/-- Sum of all morph deltas handed to the Attribute Mutator in a trace. -/
def traceDeltaSum : List MutCall → ℚ
  | [] => 0
  | MutCall.addDelta _ _ d :: rest => d + traceDeltaSum rest
  | _ :: rest => traceDeltaSum rest

/-- Morph names handed to the Attribute Mutator in a trace, in order. -/
def morphCallNames (l : List MutCall) : List String :=
  l.filterMap fun c =>
    match c with
    | MutCall.addDelta _ n _ => some n
    | _ => none

/-- The scale node keys a command batch writes for one role: the
`nodeKey`s of that role's scale commands, provided the role's resolved
handle is set (an empty handle contributes nothing). -/
def dueScaleKeys (tl : ActiveTimeline) (who : TargetKind)
    (cmds : List TimedCommand) : List String :=
  if (resolveActor tl who).isSet then
    (cmds.filter fun c => decide (c.kind = CommandKind.kScale ∧ c.target = who)).map
      fun c => c.nodeKey
  else []

/-- Whether a command batch makes an instant morph write for one role. -/
def wroteInstantMorph (tl : ActiveTimeline) (who : TargetKind)
    (cmds : List TimedCommand) : Bool :=
  (resolveActor tl who).isSet &&
    cmds.any fun c =>
      decide (c.kind = CommandKind.kMorph ∧ c.target = who ∧ ¬ c.tweenSeconds > 0)

/-- The collaborator calls one command emits when executed. -/
def emitsOf (tl : ActiveTimeline) (c : TimedCommand) : List MutCall :=
  match c.kind with
  | .kScale =>
    if (resolveActor tl c.target).isSet then
      [MutCall.setNodeScale (resolveActor tl c.target) c.nodeKey c.scale]
    else []
  | .kMorph =>
    if c.tweenSeconds > 0 then []
    else if (resolveActor tl c.target).isSet then
      [MutCall.addDelta (resolveActor tl c.target) c.morphName c.delta]
    else []
  | .kHide => []

/-- The collaborator calls a command batch emits, in execution order. -/
def emitsAll (tl : ActiveTimeline) : List TimedCommand → List MutCall
  | [] => []
  | c :: rest => emitsOf tl c ++ emitsAll tl rest

/-- The effect of one executed command on the caster's bookkeeping
record (what command execution marks touched). -/
def touchOf (tl : ActiveTimeline) (c : TimedCommand) (st : ActorRuntimeState) :
    ActorRuntimeState :=
  if (resolveActor tl c.target).isSet then
    match c.kind, c.target with
    | .kScale, .kCaster =>
      { st with casterTouchedScale := insertOnce st.casterTouchedScale c.nodeKey }
    | .kScale, .kTarget =>
      { st with targetTouchedScale := insertOnce st.targetTouchedScale c.nodeKey }
    | .kMorph, .kCaster =>
      if c.tweenSeconds > 0 then st else { st with casterTouchedMorph := true }
    | .kMorph, .kTarget =>
      if c.tweenSeconds > 0 then st else { st with targetTouchedMorph := true }
    | .kHide, _ => st
  else st

/-! ### Concrete scenario data used by witnesses and counterexamples -/

/-- A set, live caster handle with form ID 7. -/
def hCaster7 : ActorHandle := ⟨true, true, 7⟩

/-- A set, live target handle with form ID 9. -/
def hTarget9 : ActorHandle := ⟨true, true, 9⟩

/-- A set, live actor handle with form ID 42. -/
def hActor42 : ActorHandle := ⟨true, true, 42⟩

/-- Runtime state where caster identity 7 holds token 5 and nothing else. -/
def exSt : GState :=
  { state := fun k => if k = 7 then some { token := 5 } else none
    timelines := []
    tweens := []
    trace := [] }

/-- Completely empty runtime state. -/
def emptySt : GState :=
  { state := fun _ => none, timelines := [], tweens := [], trace := [] }

/-- A timeline entry captured under token 4 while caster 7 is at token 5. -/
def staleTl : ActiveTimeline := { casterFormID := 7, token := 4 }

/-- A tween entry captured under token 4 while caster 7 is at token 5. -/
def staleTw : ActiveTween := { casterFormID := 7, token := 4 }

/-- State for the reset evaluation: caster 7 at token 3 with touched
scale nodes on both roles, a touched caster morph, and a resolved last
target. -/
def c4St : GState :=
  { state := fun k =>
      if k = 7 then
        some
          { token := 3
            lastTarget := hTarget9
            casterTouchedScale := ["Head"]
            targetTouchedScale := ["Spine"]
            casterTouchedMorph := true
            targetTouchedMorph := false }
      else none
    timelines := []
    tweens := []
    trace := [] }

/-- State for caster 7 at token 3 with nothing touched at all. -/
def c7St : GState :=
  { state := fun k => if k = 7 then some { token := 3 } else none
    timelines := []
    tweens := []
    trace := [] }

/-- State for caster 7 at token 3 with a touched caster scale node and an
empty last target. -/
def c9St : GState :=
  { state := fun k =>
      if k = 7 then some { token := 3, casterTouchedScale := ["Head"] } else none
    timelines := []
    tweens := []
    trace := [] }

/-- A sorted three-command batch: two scales then a tweened morph. -/
def c2Cmds : List TimedCommand :=
  [ { kind := .kScale, target := .kCaster, timeSeconds := 0, nodeKey := "Head", scale := 1/2 }
  , { kind := .kScale, target := .kTarget, timeSeconds := 1/10, nodeKey := "Head", scale := 1/2 }
  , { kind := .kMorph, target := .kCaster, timeSeconds := 1/5, morphName := "Belly",
      delta := 20, tweenSeconds := 1 } ]

/-- An active timeline for caster 7 (token 5) over `c2Cmds`. -/
def c2Tl : ActiveTimeline :=
  { caster := hCaster7
    target := hTarget9
    casterFormID := 7
    token := 5
    logOps := false
    elapsedSeconds := 0
    nextIndex := 0
    commands := c2Cmds }

/-- The spec's convergence tween: total delta 10 over duration 1. -/
def c3Tween : ActiveTween :=
  { actor := hActor42
    actorFormID := 42
    casterFormID := 7
    token := 5
    who := .kCaster
    morphName := "Belly"
    totalDelta := 10
    appliedSoFar := 0
    durationSeconds := 1
    elapsedSeconds := 0
    touchedMarked := false }

/-- State carrying only `c3Tween`, its caster current at token 5. -/
def c3St : GState :=
  { state := fun k => if k = 7 then some { token := 5 } else none
    timelines := []
    tweens := [(42, "Belly", c3Tween)]
    trace := [] }

/-- Four quarter-second ticks over `c3St`. -/
def c3Run : GState := update (1/4) (update (1/4) (update (1/4) (update (1/4) c3St)))

/-- An instant caster morph command at offset 0 with the given name. -/
def c8Cmd (n : String) : TimedCommand :=
  { kind := .kMorph, target := .kCaster, timeSeconds := 0, morphName := n, delta := 2 }

/-- Run a single-command timeline writing morph "Belly" to completion. -/
def c8RunA : GState := update 1 (startTimeline hCaster7 hTarget9 7 [c8Cmd "Belly"] false emptySt)

/-- Run a single-command timeline writing morph "Nose" to completion. -/
def c8RunB : GState := update 1 (startTimeline hCaster7 hTarget9 7 [c8Cmd "Nose"] false emptySt)

/-- A tween whose handle is set but no longer resolves to a live actor. -/
def deadTw : ActiveTween :=
  { actor := ⟨true, false, 42⟩
    actorFormID := 42
    casterFormID := 7
    token := 5
    morphName := "Belly"
    totalDelta := 10
    durationSeconds := 1 }

end FBSpec

namespace FBSpec

/-! ### Basic state-manipulation lemmas -/

@[simp]
theorem getState_setState_self (s : GState) (fid : Nat) (st : ActorRuntimeState) :
    getState (setState s fid st) fid = st := by
  simp [getState, setState]

@[simp]
theorem trace_setState (s : GState) (fid : Nat) (st : ActorRuntimeState) :
    (setState s fid st).trace = s.trace := rfl

@[simp]
theorem tweens_setState (s : GState) (fid : Nat) (st : ActorRuntimeState) :
    (setState s fid st).tweens = s.tweens := rfl

@[simp]
theorem timelines_setState (s : GState) (fid : Nat) (st : ActorRuntimeState) :
    (setState s fid st).timelines = s.timelines := rfl

@[simp]
theorem state_emit (s : GState) (c : MutCall) : (emit s c).state = s.state := rfl

@[simp]
theorem getState_emit (s : GState) (c : MutCall) (fid : Nat) :
    getState (emit s c) fid = getState s fid := rfl

@[simp]
theorem trace_emit (s : GState) (c : MutCall) : (emit s c).trace = s.trace ++ [c] := rfl

@[simp]
theorem tweens_emit (s : GState) (c : MutCall) : (emit s c).tweens = s.tweens := rfl

@[simp]
theorem timelines_emit (s : GState) (c : MutCall) : (emit s c).timelines = s.timelines := rfl

theorem emitScaleResets_state (h : ActorHandle) (l : List String) :
    ∀ s : GState, (emitScaleResets h s l).state = s.state := by
  induction l with
  | nil => intro s; rfl
  | cons n rest ih => intro s; rw [emitScaleResets, ih]; rfl

theorem emitScaleResets_trace (h : ActorHandle) (l : List String) :
    ∀ s : GState, (emitScaleResets h s l).trace =
      s.trace ++ l.map fun n => MutCall.setNodeScale h n 1 := by
  induction l with
  | nil => intro s; simp [emitScaleResets]
  | cons n rest ih => intro s; rw [emitScaleResets, ih]; simp

theorem emitScaleResets_tweens (h : ActorHandle) (l : List String) :
    ∀ s : GState, (emitScaleResets h s l).tweens = s.tweens := by
  induction l with
  | nil => intro s; rfl
  | cons n rest ih => intro s; rw [emitScaleResets, ih]; rfl

theorem emitScaleResets_timelines (h : ActorHandle) (l : List String) :
    ∀ s : GState, (emitScaleResets h s l).timelines = s.timelines := by
  induction l with
  | nil => intro s; rfl
  | cons n rest ih => intro s; rw [emitScaleResets, ih]; rfl

/-! ### Characterisation of `bumpToken`, `startTimeline`, `cancelAndReset` -/

theorem getState_bumpToken (fid : Nat) (s : GState) :
    getState (bumpToken fid s).2 fid =
      { token := ((getState s fid).token + 1) % U64
        lastTarget := (getState s fid).lastTarget
        casterTouchedScale := []
        targetTouchedScale := []
        casterTouchedMorph := false
        targetTouchedMorph := false } := by
  simp [bumpToken]

theorem startTimeline_getState (caster target : ActorHandle) (fid : Nat)
    (cmds : List TimedCommand) (lg : Bool) (s : GState) (h : caster.isSet = true) :
    getState (startTimeline caster target fid cmds lg s) fid =
      { token := ((getState s fid).token + 1) % U64
        lastTarget := target
        casterTouchedScale := []
        targetTouchedScale := []
        casterTouchedMorph := false
        targetTouchedMorph := false } := by
  simp [startTimeline, h, setLastTarget, getState, setState, bumpToken]

theorem startTimeline_tweens (caster target : ActorHandle) (fid : Nat)
    (cmds : List TimedCommand) (lg : Bool) (s : GState) :
    (startTimeline caster target fid cmds lg s).tweens = s.tweens := by
  by_cases h : caster.isSet = true <;>
    simp [startTimeline, h, setLastTarget, setState, bumpToken]

theorem cancelAndReset_getState (caster : ActorHandle) (fid : Nat) (lg rc rt : Bool)
    (s : GState) :
    getState (cancelAndReset caster fid lg rc rt s) fid =
      { token := ((getState s fid).token + 1) % U64
        lastTarget := (getState s fid).lastTarget
        casterTouchedScale := []
        targetTouchedScale := []
        casterTouchedMorph := false
        targetTouchedMorph := false } := by
  obtain ⟨f, tls, tws, tr⟩ := s
  cases hc : caster.isSet <;> cases hrc : rc <;> cases hrt : rt <;>
    rcases hsf : f fid with _ | st <;>
      simp [cancelAndReset, takeSnapshot, bumpToken, getState, setState, emit,
        emitScaleResets, hc, hrc, hrt, hsf, ActorHandle.empty, ActorHandle.isSet] <;>
      split_ifs <;>
      simp_all [emitScaleResets_state, emit, ActorHandle.isSet, ActorHandle.empty]

theorem cancelAndReset_trace (caster : ActorHandle) (fid : Nat) (lg rc rt : Bool)
    (s : GState) :
    (cancelAndReset caster fid lg rc rt s).trace =
      s.trace
        ++ (if caster.isSet = true ∧ rc = true then [MutCall.resetAllForActor caster] else [])
        ++ (if (getState s fid).lastTarget.isSet = true ∧ rt = true
            then [MutCall.resetAllForActor (getState s fid).lastTarget] else []) := by
  obtain ⟨f, tls, tws, tr⟩ := s
  cases hc : caster.isSet <;> cases hrc : rc <;> cases hrt : rt <;>
    rcases hsf : f fid with _ | st <;>
      simp [cancelAndReset, takeSnapshot, bumpToken, getState, setState, emit,
        emitScaleResets, hc, hrc, hrt, hsf, ActorHandle.empty, ActorHandle.isSet] <;>
      split_ifs <;>
      simp_all [emitScaleResets_trace, emit, ActorHandle.isSet, ActorHandle.empty]

theorem cancelAndReset_tweens (caster : ActorHandle) (fid : Nat) (lg rc rt : Bool)
    (s : GState) :
    (cancelAndReset caster fid lg rc rt s).tweens = clearTweensForCaster fid s.tweens := by
  obtain ⟨f, tls, tws, tr⟩ := s
  cases hc : caster.isSet <;> cases hrc : rc <;> cases hrt : rt <;>
    rcases hsf : f fid with _ | st <;>
      simp [cancelAndReset, takeSnapshot, bumpToken, getState, setState, emit,
        emitScaleResets, hc, hrc, hrt, hsf, ActorHandle.empty, ActorHandle.isSet] <;>
      split_ifs <;>
      simp_all [emitScaleResets_tweens, emit, ActorHandle.isSet, ActorHandle.empty]

theorem cancelAndReset_timelines (caster : ActorHandle) (fid : Nat) (lg rc rt : Bool)
    (s : GState) :
    (cancelAndReset caster fid lg rc rt s).timelines =
      s.timelines.filter fun p => decide (p.1 ≠ fid) := by
  obtain ⟨f, tls, tws, tr⟩ := s
  cases hc : caster.isSet <;> cases hrc : rc <;> cases hrt : rt <;>
    rcases hsf : f fid with _ | st <;>
      simp [cancelAndReset, takeSnapshot, bumpToken, getState, setState, emit,
        emitScaleResets, hc, hrc, hrt, hsf, ActorHandle.empty, ActorHandle.isSet] <;>
      split_ifs <;>
      simp_all [emitScaleResets_timelines, emit, ActorHandle.isSet, ActorHandle.empty]

end FBSpec

namespace FBSpec

/-! ### Claim C1 -/

/-- Claim C1 counterexample: the claim quantifies over every call, but a
`StartTimeline` whose caster handle is empty is a no-op and leaves the
caster's token unchanged — token 5 stays 5, no strict increase. -/
theorem C1_counterexample :
    (getState exSt 7).token = 5
    ∧ getState (startTimeline ActorHandle.empty hTarget9 7 [] false exSt) 7 = getState exSt 7
    ∧ ¬ ((getState exSt 7).token
          < (getState (startTimeline ActorHandle.empty hTarget9 7 [] false exSt) 7).token) := by
  decide

/-- Claim C1 (amended): every `CancelAndReset` call, and every
`StartTimeline` call whose caster handle is set, strictly increases that
caster's token (a 64-bit counter, below its wrap bound); and work
captured under a stale token never executes: the per-timeline and
per-tween `Update` steps drop a stale entry and leave the state
untouched, invoking no Attribute Mutator. -/
theorem C1_token_monotonic_and_stale_dropped
    (s : GState) (caster target : ActorHandle) (fid : Nat)
    (cmds : List TimedCommand) (lg rc rt : Bool) (dt : ℚ)
    (tl : ActiveTimeline) (tw : ActiveTween)
    (hwrap : (getState s fid).token + 1 < U64)
    (hcaster : caster.isSet = true)
    (htl : isTokenCurrent s tl.casterFormID tl.token = false)
    (htw : isTokenCurrent s tw.casterFormID tw.token = false) :
    (getState s fid).token < (getState (startTimeline caster target fid cmds lg s) fid).token
    ∧ (getState s fid).token < (getState (cancelAndReset caster fid lg rc rt s) fid).token
    ∧ stepTimeline dt s tl = (s, none)
    ∧ stepTween dt s tw = (s, none) := by
  have hmod : ((getState s fid).token + 1) % U64 = (getState s fid).token + 1 :=
    Nat.mod_eq_of_lt hwrap
  refine ⟨?_, ?_, ?_, ?_⟩
  · rw [startTimeline_getState caster target fid cmds lg s hcaster]
    simp [hmod]
  · rw [cancelAndReset_getState]
    simp [hmod]
  · simp [stepTimeline, htl]
  · simp [stepTween, htw]

/-- Claim C1 witness: concrete instantiation at caster 7, token 5, with
stale timeline and tween entries captured under token 4. -/
theorem C1_witness :
    ((getState exSt 7).token + 1 < U64
      ∧ hCaster7.isSet = true
      ∧ isTokenCurrent exSt staleTl.casterFormID staleTl.token = false
      ∧ isTokenCurrent exSt staleTw.casterFormID staleTw.token = false)
    ∧ ((getState exSt 7).token
          < (getState (startTimeline hCaster7 hTarget9 7 [] false exSt) 7).token
      ∧ (getState exSt 7).token
          < (getState (cancelAndReset hCaster7 7 false false false exSt) 7).token
      ∧ stepTimeline (1/8) exSt staleTl = (exSt, none)
      ∧ stepTween (1/8) exSt staleTw = (exSt, none)) :=
  ⟨⟨by decide, by decide, by decide, by decide⟩,
    C1_token_monotonic_and_stale_dropped exSt hCaster7 hTarget9 7 [] false false false (1/8)
      staleTl staleTw (by decide) (by decide) (by decide) (by decide)⟩

/-! ### Claim C4 -/

/-- Claim C4 evaluated at a failing input: caster 7 touched scale node
"Head" on itself and "Spine" on the target, yet `CancelAndReset` issues
no scale-restore call whatsoever (`BumpToken` clears the touched sets
before `TakeSnapshot` reads them, so the restore loops run over empty
sets), and the `lastTarget` bookkeeping survives the reset. -/
theorem C4_reset_restore_is_dead :
    (getState c4St 7).casterTouchedScale = ["Head"]
    ∧ (getState c4St 7).targetTouchedScale = ["Spine"]
    ∧ (getState c4St 7).lastTarget = hTarget9
    ∧ (cancelAndReset hCaster7 7 false true true c4St).trace =
        [MutCall.resetAllForActor hCaster7, MutCall.resetAllForActor hTarget9]
    ∧ (getState (cancelAndReset hCaster7 7 false true true c4St) 7).casterTouchedScale = []
    ∧ (getState (cancelAndReset hCaster7 7 false true true c4St) 7).targetTouchedScale = []
    ∧ (getState (cancelAndReset hCaster7 7 false true true c4St) 7).lastTarget = hTarget9 := by
  decide

/-! ### Claim C5 -/

/-- Claim C5: `Update` with non-positive dt is an exact no-op, and any dt
above the quarter-second clamp ceiling behaves identically to the
ceiling itself — in particular `Update(10)` equals `Update(1/4)`. -/
theorem C5_dt_guard (s : GState) (dt big : ℚ) (hneg : dt ≤ 0) (hbig : kMaxDtSeconds < big) :
    update dt s = s
    ∧ update big s = update kMaxDtSeconds s
    ∧ update 10 s = update kMaxDtSeconds s := by
  have h0 : ¬ big ≤ 0 := by
    rw [kMaxDtSeconds] at hbig
    intro h
    nlinarith
  have hm0 : ¬ kMaxDtSeconds ≤ 0 := by rw [kMaxDtSeconds]; norm_num
  have hb10 : kMaxDtSeconds < (10 : ℚ) := by rw [kMaxDtSeconds]; norm_num
  have h010 : ¬ (10 : ℚ) ≤ 0 := by norm_num
  refine ⟨by simp [update, hneg], ?_, ?_⟩
  · simp [update, h0, hm0, hbig]
  · simp [update, h010, hm0, hb10]

/-- Claim C5 witness: concrete instantiation at dt = -1 and dt = 10. -/
theorem C5_witness :
    ((-1 : ℚ) ≤ 0 ∧ kMaxDtSeconds < (10 : ℚ))
    ∧ (update (-1) exSt = exSt
      ∧ update 10 exSt = update kMaxDtSeconds exSt
      ∧ update 10 exSt = update kMaxDtSeconds exSt) :=
  ⟨⟨by norm_num, by rw [kMaxDtSeconds]; norm_num⟩,
    C5_dt_guard exSt (-1) 10 (by norm_num) (by rw [kMaxDtSeconds]; norm_num)⟩

/-! ### Claim C7 -/

/-- Claim C7 counterexample: with nothing modified during the run (all
touched bookkeeping empty), `CancelAndReset` with the caster reset flag
set still issues the morph-reset collaborator call for the caster. -/
theorem C7_counterexample :
    (getState c7St 7).casterTouchedMorph = false
    ∧ (getState c7St 7).targetTouchedMorph = false
    ∧ (getState c7St 7).casterTouchedScale = []
    ∧ (getState c7St 7).targetTouchedScale = []
    ∧ c7St.trace = []
    ∧ (cancelAndReset hCaster7 7 false true false c7St).trace
        = [MutCall.resetAllForActor hCaster7] := by
  decide

/-- Claim C7 (amended): `CancelAndReset` issues the whole-actor
morph-reset call for a role exactly when that role's reset flag is set
and the role's handle is set, independent of whether the run modified
any morph; it issues no per-attribute mutator call at all (the
scale-restore loops iterate touched sets the token bump has already
cleared); afterwards the touched-morph flags are clear. -/
theorem C7_morph_reset_flag_gated (caster : ActorHandle) (fid : Nat) (lg rc rt : Bool)
    (s : GState) :
    (cancelAndReset caster fid lg rc rt s).trace =
      s.trace
        ++ (if caster.isSet = true ∧ rc = true then [MutCall.resetAllForActor caster] else [])
        ++ (if (getState s fid).lastTarget.isSet = true ∧ rt = true
            then [MutCall.resetAllForActor (getState s fid).lastTarget] else [])
    ∧ (getState (cancelAndReset caster fid lg rc rt s) fid).casterTouchedMorph = false
    ∧ (getState (cancelAndReset caster fid lg rc rt s) fid).targetTouchedMorph = false := by
  refine ⟨cancelAndReset_trace caster fid lg rc rt s, ?_, ?_⟩ <;>
    rw [cancelAndReset_getState]

/-! ### Claim C9 -/

/-- Claim C9: `CancelAndReset` with an empty caster handle still bumps
the token and clears the whole touched registry, while every caster-side
mutator call is skipped; and when the last resolved target is empty too,
no mutator call at all is made. -/
theorem C9_invalid_handles (caster : ActorHandle) (fid : Nat) (lg rc rt : Bool)
    (s : GState) (hc : caster.isSet = false) :
    (getState (cancelAndReset caster fid lg rc rt s) fid).token
        = ((getState s fid).token + 1) % U64
    ∧ (getState (cancelAndReset caster fid lg rc rt s) fid).casterTouchedScale = []
    ∧ (getState (cancelAndReset caster fid lg rc rt s) fid).targetTouchedScale = []
    ∧ (getState (cancelAndReset caster fid lg rc rt s) fid).casterTouchedMorph = false
    ∧ (getState (cancelAndReset caster fid lg rc rt s) fid).targetTouchedMorph = false
    ∧ (cancelAndReset caster fid lg rc rt s).trace =
        s.trace ++ (if (getState s fid).lastTarget.isSet = true ∧ rt = true
          then [MutCall.resetAllForActor (getState s fid).lastTarget] else [])
    ∧ ((getState s fid).lastTarget.isSet = false →
        (cancelAndReset caster fid lg rc rt s).trace = s.trace) := by
  have ht := cancelAndReset_trace caster fid lg rc rt s
  have hg := cancelAndReset_getState caster fid lg rc rt s
  refine ⟨?_, ?_, ?_, ?_, ?_, ?_, ?_⟩
  · rw [hg]
  · rw [hg]
  · rw [hg]
  · rw [hg]
  · rw [hg]
  · rw [ht]; simp [hc]
  · intro hlt; rw [ht]; simp [hc, hlt]

/-- Claim C9 witness: concrete instantiation at an empty caster handle
over a state with a touched caster node and an empty last target. -/
theorem C9_witness :
    (ActorHandle.empty.isSet = false
      ∧ (getState c9St 7).casterTouchedScale = ["Head"]
      ∧ (getState c9St 7).lastTarget.isSet = false)
    ∧ ((getState (cancelAndReset ActorHandle.empty 7 false true true c9St) 7).token
          = ((getState c9St 7).token + 1) % U64
      ∧ (getState (cancelAndReset ActorHandle.empty 7 false true true c9St) 7).casterTouchedScale = []
      ∧ (getState (cancelAndReset ActorHandle.empty 7 false true true c9St) 7).targetTouchedScale = []
      ∧ (getState (cancelAndReset ActorHandle.empty 7 false true true c9St) 7).casterTouchedMorph = false
      ∧ (getState (cancelAndReset ActorHandle.empty 7 false true true c9St) 7).targetTouchedMorph = false
      ∧ (cancelAndReset ActorHandle.empty 7 false true true c9St).trace =
          c9St.trace ++ (if (getState c9St 7).lastTarget.isSet = true ∧ true = true
            then [MutCall.resetAllForActor (getState c9St 7).lastTarget] else [])
      ∧ ((getState c9St 7).lastTarget.isSet = false →
          (cancelAndReset ActorHandle.empty 7 false true true c9St).trace = c9St.trace)) :=
  ⟨⟨by decide, by decide, by decide⟩,
    C9_invalid_handles ActorHandle.empty 7 false true true c9St (by decide)⟩

end FBSpec

namespace FBSpec

/-! ### Claim C2 -/

theorem runFrom_eq_execList (tl : ActiveTimeline) (cmds : List TimedCommand) :
    ∀ (s : GState) (idx : Nat),
      runFrom tl s idx cmds =
        (execList tl s (cmds.takeWhile fun c => decide (c.timeSeconds ≤ tl.elapsedSeconds)),
          idx + (cmds.takeWhile fun c => decide (c.timeSeconds ≤ tl.elapsedSeconds)).length) := by
  induction cmds with
  | nil => intro s idx; simp [runFrom, execList]
  | cons c rest ih =>
    intro s idx
    by_cases h : tl.elapsedSeconds < c.timeSeconds
    · have hnot : (decide (c.timeSeconds ≤ tl.elapsedSeconds)) = false :=
        decide_eq_false (not_le.mpr h)
      rw [runFrom, if_pos h]
      simp [List.takeWhile_cons, hnot, execList]
    · have hle : (decide (c.timeSeconds ≤ tl.elapsedSeconds)) = true :=
        decide_eq_true (not_lt.mp h)
      rw [runFrom, if_neg h, ih]
      simp [List.takeWhile_cons, hle, execList]
      omega

theorem takeWhile_eq_filter_of_sorted (E : ℚ) (cmds : List TimedCommand) :
    List.Sorted (fun a b : TimedCommand => a.timeSeconds ≤ b.timeSeconds) cmds →
    cmds.takeWhile (fun c => decide (c.timeSeconds ≤ E))
      = cmds.filter (fun c => decide (c.timeSeconds ≤ E)) := by
  induction cmds with
  | nil => intro _; rfl
  | cons c rest ih =>
    intro hs
    rw [List.sorted_cons] at hs
    by_cases h : c.timeSeconds ≤ E
    · simp [List.takeWhile_cons, List.filter_cons, h, ih hs.2]
    · have hrest : rest.filter (fun c => decide (c.timeSeconds ≤ E)) = [] := by
        rw [List.filter_eq_nil_iff]
        intro a ha
        simp only [decide_eq_true_eq]
        intro hae
        exact h (le_trans (hs.1 a ha) hae)
      simp [List.takeWhile_cons, List.filter_cons, h, hrest]

/-- Claim C2: with a current token and the remaining commands sorted
ascending by time offset (the load-time precondition), one `Update` step
over a timeline advances elapsed time by the clamped dt and executes
exactly the not-yet-executed commands whose time offset is at or below
the new elapsed time, in list (ascending) order, advancing the cursor
past each — so each command is consumed at most once — and removes the
timeline once the cursor has consumed all commands; and within a tick
`Update` runs the whole timeline pass before the tween pass. -/
theorem C2_due_commands_in_order (dt : ℚ) (s : GState) (tl : ActiveTimeline)
    (htok : isTokenCurrent s tl.casterFormID tl.token = true)
    (hsorted : List.Sorted (fun a b : TimedCommand => a.timeSeconds ≤ b.timeSeconds)
      (tl.commands.drop tl.nextIndex))
    (hdt : 0 < dt) (hdt4 : dt ≤ kMaxDtSeconds) :
    stepTimeline dt s tl =
      (execList { tl with elapsedSeconds := tl.elapsedSeconds + dt } s
          ((tl.commands.drop tl.nextIndex).filter
            fun c => decide (c.timeSeconds ≤ tl.elapsedSeconds + dt)),
        if tl.commands.length ≤ tl.nextIndex
              + ((tl.commands.drop tl.nextIndex).filter
                  fun c => decide (c.timeSeconds ≤ tl.elapsedSeconds + dt)).length
          then none
          else some { tl with
            elapsedSeconds := tl.elapsedSeconds + dt
            nextIndex := tl.nextIndex
              + ((tl.commands.drop tl.nextIndex).filter
                  fun c => decide (c.timeSeconds ≤ tl.elapsedSeconds + dt)).length })
    ∧ update dt s = updateTweens dt (updateTimelines dt s) := by
  constructor
  · have htf := takeWhile_eq_filter_of_sorted (tl.elapsedSeconds + dt)
      (tl.commands.drop tl.nextIndex) hsorted
    rw [stepTimeline, if_pos htok]
    simp only [runFrom_eq_execList, htf]
    split_ifs <;> rfl
  · have h0 : ¬ dt ≤ 0 := not_le.mpr hdt
    have h4 : ¬ dt > kMaxDtSeconds := not_lt.mpr hdt4
    simp [update, h0, h4]

/-- Claim C2 witness: concrete instantiation over the sorted
three-command batch `c2Cmds` at dt = 1/8 (two commands due). -/
theorem C2_witness :
    (isTokenCurrent exSt c2Tl.casterFormID c2Tl.token = true
      ∧ List.Sorted (fun a b : TimedCommand => a.timeSeconds ≤ b.timeSeconds)
          (c2Tl.commands.drop c2Tl.nextIndex)
      ∧ (0 : ℚ) < 1/8 ∧ (1/8 : ℚ) ≤ kMaxDtSeconds)
    ∧ (stepTimeline (1/8) exSt c2Tl =
        (execList { c2Tl with elapsedSeconds := c2Tl.elapsedSeconds + 1/8 } exSt
            ((c2Tl.commands.drop c2Tl.nextIndex).filter
              fun c => decide (c.timeSeconds ≤ c2Tl.elapsedSeconds + 1/8)),
          if c2Tl.commands.length ≤ c2Tl.nextIndex
                + ((c2Tl.commands.drop c2Tl.nextIndex).filter
                    fun c => decide (c.timeSeconds ≤ c2Tl.elapsedSeconds + 1/8)).length
            then none
            else some { c2Tl with
              elapsedSeconds := c2Tl.elapsedSeconds + 1/8
              nextIndex := c2Tl.nextIndex
                + ((c2Tl.commands.drop c2Tl.nextIndex).filter
                    fun c => decide (c.timeSeconds ≤ c2Tl.elapsedSeconds + 1/8)).length })
      ∧ update (1/8) exSt = updateTweens (1/8) (updateTimelines (1/8) exSt)) :=
  ⟨⟨by decide, by with_unfolding_all decide, by norm_num, by rw [kMaxDtSeconds]; norm_num⟩,
    C2_due_commands_in_order (1/8) exSt c2Tl (by decide) (by with_unfolding_all decide)
      (by norm_num) (by rw [kMaxDtSeconds]; norm_num)⟩

end FBSpec

namespace FBSpec

/-! ### Claim C3 -/

@[simp]
theorem trace_markTouchedMorph (fid : Nat) (who : TargetKind) (s : GState) :
    (markTouchedMorph fid who s).trace = s.trace := by
  cases who <;> rfl

@[simp]
theorem tweens_markTouchedMorph (fid : Nat) (who : TargetKind) (s : GState) :
    (markTouchedMorph fid who s).tweens = s.tweens := by
  cases who <;> rfl

@[simp]
theorem timelines_markTouchedMorph (fid : Nat) (who : TargetKind) (s : GState) :
    (markTouchedMorph fid who s).timelines = s.timelines := by
  cases who <;> rfl

theorem clampQ_le_hi (v lo hi : ℚ) (h : lo ≤ hi) : clampQ v lo hi ≤ hi := by
  unfold clampQ
  split_ifs with h1 h2
  · exact h
  · exact le_refl hi
  · exact not_lt.mp h2

theorem traceDeltaSum_append (a b : List MutCall) :
    traceDeltaSum (a ++ b) = traceDeltaSum a + traceDeltaSum b := by
  induction a with
  | nil => simp [traceDeltaSum]
  | cons c rest ih => cases c <;> simp [traceDeltaSum, ih] <;> ring

/-- Full behaviour of one tween step when the token is current, the
handle resolves, and the duration is positive. -/
theorem stepTween_run (dt : ℚ) (s : GState) (tw : ActiveTween)
    (htok : isTokenCurrent s tw.casterFormID tw.token = true)
    (hvalid : tw.actor.valid = true) (hlive : tw.actor.live = true)
    (hdur : 0 < tw.durationSeconds) :
    stepTween dt s tw =
      ((if tw.totalDelta * clampQ ((tw.elapsedSeconds + dt) / tw.durationSeconds) 0 1
            - tw.appliedSoFar = 0 then s
        else
          if tw.touchedMarked = true then
            emit s (MutCall.addDelta tw.actor tw.morphName
              (tw.totalDelta * clampQ ((tw.elapsedSeconds + dt) / tw.durationSeconds) 0 1
                - tw.appliedSoFar))
          else
            markTouchedMorph tw.casterFormID tw.who
              (emit s (MutCall.addDelta tw.actor tw.morphName
                (tw.totalDelta * clampQ ((tw.elapsedSeconds + dt) / tw.durationSeconds) 0 1
                  - tw.appliedSoFar)))),
        if 1 ≤ clampQ ((tw.elapsedSeconds + dt) / tw.durationSeconds) 0 1 then none
        else some { tw with
          elapsedSeconds := tw.elapsedSeconds + dt
          appliedSoFar := tw.totalDelta * clampQ ((tw.elapsedSeconds + dt) / tw.durationSeconds) 0 1
          touchedMarked := tw.touchedMarked
            || !decide (tw.totalDelta * clampQ ((tw.elapsedSeconds + dt) / tw.durationSeconds) 0 1
                - tw.appliedSoFar = 0) }) := by
  have hset : tw.actor.isSet = true := hvalid
  have hder : tw.actor.deref = some tw.actor.formID := by
    simp [ActorHandle.deref, hvalid, hlive]
  have hd0 : ¬ tw.durationSeconds ≤ 0 := not_le.mpr hdur
  unfold stepTween
  rw [if_pos htok, if_pos hset]
  simp only [hder]
  rw [if_neg hd0]
  by_cases hstep : tw.totalDelta * clampQ ((tw.elapsedSeconds + dt) / tw.durationSeconds) 0 1
      - tw.appliedSoFar = 0
  · have happ : tw.totalDelta * clampQ ((tw.elapsedSeconds + dt) / tw.durationSeconds) 0 1
        = tw.appliedSoFar := sub_eq_zero.mp hstep
    simp [hstep, happ]
    split_ifs <;> rfl
  · by_cases hmark : tw.touchedMarked = true
    · simp [hstep, hmark]
      split_ifs <;> rfl
    · simp [hstep, hmark]
      split_ifs <;> rfl

end FBSpec

namespace FBSpec

theorem markTouchedMorph_state_congr (fid : Nat) (who : TargetKind) (s1 s2 : GState)
    (h : s1.state = s2.state) :
    (markTouchedMorph fid who s1).state = (markTouchedMorph fid who s2).state := by
  cases who <;> simp [markTouchedMorph, setState, getState, h]

/-- Claim C3: a tween step with a current token, a live actor, and a
positive duration advances elapsed time by dt, computes the clamped
linear alpha and target `totalDelta * alpha`, invokes the Attribute
Mutator with the incremental step exactly when it is non-zero, marks the
morph touched exactly on the first non-zero step, stores
`appliedSoFar = target` in the surviving tween, removes the tween
exactly when alpha reaches 1, at which point the emitted steps sum to
exactly the remaining commanded delta; concretely, delta 10 over
duration 1 ticked four times at dt = 1/4 emits four steps of 5/2 (each
positive, the sign of the delta) summing to exactly 10 and removes the
tween. -/
theorem C3_tween_interpolation (dt : ℚ) (s : GState) (tw : ActiveTween)
    (htok : isTokenCurrent s tw.casterFormID tw.token = true)
    (hvalid : tw.actor.valid = true) (hlive : tw.actor.live = true)
    (hdur : 0 < tw.durationSeconds) :
    (stepTween dt s tw).1.trace =
      s.trace ++
        (if tw.totalDelta * clampQ ((tw.elapsedSeconds + dt) / tw.durationSeconds) 0 1
              - tw.appliedSoFar = 0 then []
          else [MutCall.addDelta tw.actor tw.morphName
            (tw.totalDelta * clampQ ((tw.elapsedSeconds + dt) / tw.durationSeconds) 0 1
              - tw.appliedSoFar)])
    ∧ (stepTween dt s tw).1.state =
        (if tw.totalDelta * clampQ ((tw.elapsedSeconds + dt) / tw.durationSeconds) 0 1
              - tw.appliedSoFar ≠ 0 ∧ tw.touchedMarked = false
          then (markTouchedMorph tw.casterFormID tw.who s).state
          else s.state)
    ∧ (∀ tw2, (stepTween dt s tw).2 = some tw2 →
        tw2.appliedSoFar
            = tw.totalDelta * clampQ ((tw.elapsedSeconds + dt) / tw.durationSeconds) 0 1
          ∧ tw2.elapsedSeconds = tw.elapsedSeconds + dt
          ∧ tw2.touchedMarked = (tw.touchedMarked
              || !decide (tw.totalDelta
                  * clampQ ((tw.elapsedSeconds + dt) / tw.durationSeconds) 0 1
                  - tw.appliedSoFar = 0)))
    ∧ ((stepTween dt s tw).2 = none
        ↔ 1 ≤ clampQ ((tw.elapsedSeconds + dt) / tw.durationSeconds) 0 1)
    ∧ (1 ≤ clampQ ((tw.elapsedSeconds + dt) / tw.durationSeconds) 0 1 →
        traceDeltaSum (stepTween dt s tw).1.trace
          = traceDeltaSum s.trace + (tw.totalDelta - tw.appliedSoFar))
    ∧ (c3Run.trace =
          [MutCall.addDelta hActor42 "Belly" (5/2), MutCall.addDelta hActor42 "Belly" (5/2),
            MutCall.addDelta hActor42 "Belly" (5/2), MutCall.addDelta hActor42 "Belly" (5/2)]
        ∧ c3Run.tweens = []
        ∧ traceDeltaSum c3Run.trace = 10
        ∧ (0 : ℚ) < 5/2) := by
  have hrun := stepTween_run dt s tw htok hvalid hlive hdur
  refine ⟨?_, ?_, ?_, ?_, ?_, ?_⟩
  · rw [hrun]
    by_cases hstep : tw.totalDelta * clampQ ((tw.elapsedSeconds + dt) / tw.durationSeconds) 0 1
        - tw.appliedSoFar = 0
    · simp [hstep]
    · by_cases hmark : tw.touchedMarked = true <;> simp [hstep, hmark, emit]
  · rw [hrun]
    by_cases hstep : tw.totalDelta * clampQ ((tw.elapsedSeconds + dt) / tw.durationSeconds) 0 1
        - tw.appliedSoFar = 0
    · simp [hstep]
    · by_cases hmark : tw.touchedMarked = true <;> simp [hstep, hmark]
      exact markTouchedMorph_state_congr _ _ _ _ (state_emit s _)
  · rw [hrun]
    intro tw2 h2
    by_cases halpha : 1 ≤ clampQ ((tw.elapsedSeconds + dt) / tw.durationSeconds) 0 1
    · simp [halpha] at h2
    · simp only [if_neg halpha, Option.some.injEq] at h2
      subst h2
      simp
  · rw [hrun]
    by_cases halpha : 1 ≤ clampQ ((tw.elapsedSeconds + dt) / tw.durationSeconds) 0 1 <;>
      simp [halpha]
  · rw [hrun]
    intro halpha
    have halpha1 : clampQ ((tw.elapsedSeconds + dt) / tw.durationSeconds) 0 1 = 1 :=
      le_antisymm (clampQ_le_hi _ _ _ (by norm_num)) halpha
    by_cases hstep : tw.totalDelta * clampQ ((tw.elapsedSeconds + dt) / tw.durationSeconds) 0 1
        - tw.appliedSoFar = 0
    · rw [halpha1, mul_one] at hstep
      have heq : tw.totalDelta = tw.appliedSoFar := sub_eq_zero.mp hstep
      simp [halpha1, heq]
    · rw [halpha1, mul_one] at hstep
      by_cases hmark : tw.touchedMarked = true <;>
        simp [hstep, hmark, emit, traceDeltaSum_append, traceDeltaSum, halpha1]
  · exact ⟨by with_unfolding_all decide, by with_unfolding_all decide,
      by with_unfolding_all decide, by norm_num⟩

/-- Claim C3 witness: concrete instantiation at the convergence tween
with dt = 1/4. -/
theorem C3_witness :
    (isTokenCurrent c3St c3Tween.casterFormID c3Tween.token = true
      ∧ c3Tween.actor.valid = true ∧ c3Tween.actor.live = true
      ∧ (0 : ℚ) < c3Tween.durationSeconds)
    ∧ ((stepTween (1/4) c3St c3Tween).1.trace =
        c3St.trace ++
          (if c3Tween.totalDelta
                * clampQ ((c3Tween.elapsedSeconds + 1/4) / c3Tween.durationSeconds) 0 1
                - c3Tween.appliedSoFar = 0 then []
            else [MutCall.addDelta c3Tween.actor c3Tween.morphName
              (c3Tween.totalDelta
                * clampQ ((c3Tween.elapsedSeconds + 1/4) / c3Tween.durationSeconds) 0 1
                - c3Tween.appliedSoFar)])
      ∧ (stepTween (1/4) c3St c3Tween).1.state =
          (if c3Tween.totalDelta
                * clampQ ((c3Tween.elapsedSeconds + 1/4) / c3Tween.durationSeconds) 0 1
                - c3Tween.appliedSoFar ≠ 0 ∧ c3Tween.touchedMarked = false
            then (markTouchedMorph c3Tween.casterFormID c3Tween.who c3St).state
            else c3St.state)
      ∧ (∀ tw2, (stepTween (1/4) c3St c3Tween).2 = some tw2 →
          tw2.appliedSoFar
              = c3Tween.totalDelta
                * clampQ ((c3Tween.elapsedSeconds + 1/4) / c3Tween.durationSeconds) 0 1
            ∧ tw2.elapsedSeconds = c3Tween.elapsedSeconds + 1/4
            ∧ tw2.touchedMarked = (c3Tween.touchedMarked
                || !decide (c3Tween.totalDelta
                    * clampQ ((c3Tween.elapsedSeconds + 1/4) / c3Tween.durationSeconds) 0 1
                    - c3Tween.appliedSoFar = 0)))
      ∧ ((stepTween (1/4) c3St c3Tween).2 = none
          ↔ 1 ≤ clampQ ((c3Tween.elapsedSeconds + 1/4) / c3Tween.durationSeconds) 0 1)
      ∧ (1 ≤ clampQ ((c3Tween.elapsedSeconds + 1/4) / c3Tween.durationSeconds) 0 1 →
          traceDeltaSum (stepTween (1/4) c3St c3Tween).1.trace
            = traceDeltaSum c3St.trace + (c3Tween.totalDelta - c3Tween.appliedSoFar))
      ∧ (c3Run.trace =
            [MutCall.addDelta hActor42 "Belly" (5/2), MutCall.addDelta hActor42 "Belly" (5/2),
              MutCall.addDelta hActor42 "Belly" (5/2), MutCall.addDelta hActor42 "Belly" (5/2)]
          ∧ c3Run.tweens = []
          ∧ traceDeltaSum c3Run.trace = 10
          ∧ (0 : ℚ) < 5/2)) :=
  ⟨⟨by decide, by decide, by decide, by norm_num [c3Tween]⟩,
    C3_tween_interpolation (1/4) c3St c3Tween (by decide) (by decide) (by decide)
      (by norm_num [c3Tween])⟩

end FBSpec

namespace FBSpec

/-! ### Claim C10 -/

@[simp]
theorem tweens_markTouchedScale (fid : Nat) (who : TargetKind) (key : String) (s : GState) :
    (markTouchedScale fid who key s).tweens = s.tweens := by
  cases who <;> rfl

@[simp]
theorem trace_markTouchedScale (fid : Nat) (who : TargetKind) (key : String) (s : GState) :
    (markTouchedScale fid who key s).trace = s.trace := by
  cases who <;> rfl

@[simp]
theorem timelines_markTouchedScale (fid : Nat) (who : TargetKind) (key : String) (s : GState) :
    (markTouchedScale fid who key s).timelines = s.timelines := by
  cases who <;> rfl

theorem stepTween_dead (dt : ℚ) (s : GState) (tw : ActiveTween)
    (hdead : tw.actor.valid = false ∨ tw.actor.live = false ∨ tw.durationSeconds ≤ 0) :
    stepTween dt s tw = (s, none) := by
  by_cases htok : isTokenCurrent s tw.casterFormID tw.token = true
  · by_cases hval : tw.actor.valid = true
    · rcases hdead with hv | hl | hd
      · rw [hval] at hv; exact absurd hv (by simp)
      · have hder : tw.actor.deref = none := by simp [ActorHandle.deref, hl]
        simp [stepTween, htok, ActorHandle.isSet, hval, hder]
      · cases hder : tw.actor.deref with
        | none => simp [stepTween, htok, ActorHandle.isSet, hval, hder]
        | some a => simp [stepTween, htok, ActorHandle.isSet, hval, hder, hd]
    · have hv : tw.actor.valid = false := by
        cases hx : tw.actor.valid
        · rfl
        · exact absurd hx hval
      simp [stepTween, htok, ActorHandle.isSet, hv]
  · simp [stepTween, htok]

theorem stepTween_fst_tweens (dt : ℚ) (s : GState) (tw : ActiveTween) :
    (stepTween dt s tw).1.tweens = s.tweens := by
  by_cases htok : isTokenCurrent s tw.casterFormID tw.token = true
  · by_cases hset : tw.actor.isSet = true
    · cases hder : tw.actor.deref with
      | none => simp [stepTween, htok, hset, hder]
      | some a =>
        by_cases hd : tw.durationSeconds ≤ 0
        · simp [stepTween, htok, hset, hder, hd]
        · simp only [stepTween, htok, hset, hder, hd]
          split_ifs <;> simp [emit]
    · simp [stepTween, htok, hset]
  · simp [stepTween, htok]

theorem stepTween_some_alive (dt : ℚ) (s : GState) (tw : ActiveTween) (tw2 : ActiveTween)
    (h : (stepTween dt s tw).2 = some tw2) :
    tw2.actor = tw.actor ∧ tw2.durationSeconds = tw.durationSeconds
      ∧ tw.actor.valid = true ∧ tw.actor.live = true ∧ 0 < tw.durationSeconds := by
  by_cases hval : tw.actor.valid = true
  · by_cases hliv : tw.actor.live = true
    · by_cases hd : tw.durationSeconds ≤ 0
      · rw [stepTween_dead dt s tw (Or.inr (Or.inr hd))] at h
        simp at h
      · by_cases htok : isTokenCurrent s tw.casterFormID tw.token = true
        · have hrun := stepTween_run dt s tw htok hval hliv (not_le.mp hd)
          rw [hrun] at h
          by_cases halpha : 1 ≤ clampQ ((tw.elapsedSeconds + dt) / tw.durationSeconds) 0 1
          · simp [halpha] at h
          · simp only [if_neg halpha, Option.some.injEq] at h
            subst h
            exact ⟨rfl, rfl, hval, hliv, not_le.mp hd⟩
        · rw [show stepTween dt s tw = (s, none) from by simp [stepTween, htok]] at h
          simp at h
    · have hl : tw.actor.live = false := by
        cases hx : tw.actor.live
        · rfl
        · exact absurd hx hliv
      rw [stepTween_dead dt s tw (Or.inr (Or.inl hl))] at h
      simp at h
  · have hv : tw.actor.valid = false := by
      cases hx : tw.actor.valid
      · rfl
      · exact absurd hx hval
    rw [stepTween_dead dt s tw (Or.inl hv)] at h
    simp at h

theorem tweenPass_alive (dt : ℚ) (l : List (Nat × String × ActiveTween)) :
    ∀ s0 : GState,
      (∀ p ∈ s0.tweens,
        p.2.2.actor.valid = true ∧ p.2.2.actor.live = true ∧ 0 < p.2.2.durationSeconds) →
      ∀ p ∈ (tweenPass dt s0 l).tweens,
        p.2.2.actor.valid = true ∧ p.2.2.actor.live = true ∧ 0 < p.2.2.durationSeconds := by
  induction l with
  | nil => intro s0 h p hp; exact h p hp
  | cons q rest ih =>
    rcases q with ⟨afid, mn, tw⟩
    intro s0 h p hp
    rw [tweenPass] at hp
    cases hr : (stepTween dt s0 tw).2 with
    | none =>
      simp only [hr] at hp
      refine ih (stepTween dt s0 tw).1 ?_ p hp
      rw [stepTween_fst_tweens]
      exact h
    | some tw2 =>
      simp only [hr] at hp
      refine ih _ ?_ p hp
      intro q hq
      simp only [stepTween_fst_tweens] at hq
      rcases List.mem_append.mp hq with hq1 | hq2
      · exact h q hq1
      · have hq3 : q = (afid, mn, tw2) := by simpa using hq2
        subst hq3
        obtain ⟨ha, hdur, hv, hl, hd⟩ := stepTween_some_alive dt s0 tw tw2 hr
        exact ⟨by rw [ha]; exact hv, by rw [ha]; exact hl, by rw [hdur]; exact hd⟩

/-- Claim C10: a tween whose handle is empty or no longer resolves, or
whose duration is non-positive, is removed by its `Update` step with no
Attribute Mutator call and no touched marking (the state is returned
unchanged); consequently after any `Update` with positive dt every
surviving tween has a set, live handle and positive duration. -/
theorem C10_dead_tweens_removed (dt : ℚ) (s : GState) (tw : ActiveTween)
    (hdead : tw.actor.valid = false ∨ tw.actor.live = false ∨ tw.durationSeconds ≤ 0)
    (hdt : 0 < dt) :
    stepTween dt s tw = (s, none)
    ∧ ∀ p ∈ (update dt s).tweens,
        p.2.2.actor.valid = true ∧ p.2.2.actor.live = true ∧ 0 < p.2.2.durationSeconds := by
  refine ⟨stepTween_dead dt s tw hdead, ?_⟩
  have h0 : ¬ dt ≤ 0 := not_le.mpr hdt
  by_cases hbig : dt > kMaxDtSeconds
  · have hu : update dt s = updateTweens kMaxDtSeconds (updateTimelines kMaxDtSeconds s) := by
      simp [update, h0, hbig]
    rw [hu, updateTweens]
    refine tweenPass_alive _ _ _ ?_
    intro p hp
    simp at hp
  · have hu : update dt s = updateTweens dt (updateTimelines dt s) := by
      simp [update, h0, hbig]
    rw [hu, updateTweens]
    refine tweenPass_alive _ _ _ ?_
    intro p hp
    simp at hp

/-- Claim C10 witness: concrete instantiation at a tween whose handle no
longer resolves to a live actor. -/
theorem C10_witness :
    ((deadTw.actor.valid = false ∨ deadTw.actor.live = false ∨ deadTw.durationSeconds ≤ 0)
      ∧ (0 : ℚ) < 1/8)
    ∧ (stepTween (1/8) exSt deadTw = (exSt, none)
      ∧ ∀ p ∈ (update (1/8) exSt).tweens,
          p.2.2.actor.valid = true ∧ p.2.2.actor.live = true ∧ 0 < p.2.2.durationSeconds) :=
  ⟨⟨Or.inr (Or.inl (by decide)), by norm_num⟩,
    C10_dead_tweens_removed (1/8) exSt deadTw (Or.inr (Or.inl (by decide))) (by norm_num)⟩

end FBSpec

namespace FBSpec

/-! ### Claim C6 -/

@[simp]
theorem twKeys_nil : twKeys [] = [] := rfl

@[simp]
theorem twKeys_cons (a : Nat) (m : String) (tw : ActiveTween)
    (l : List (Nat × String × ActiveTween)) :
    twKeys ((a, m, tw) :: l) = (a, m) :: twKeys l := rfl

theorem twKeys_insertTween (k : Nat × String) (tw : ActiveTween)
    (l : List (Nat × String × ActiveTween)) :
    twKeys (insertTween k tw l)
      = if k ∈ twKeys l then twKeys l else twKeys l ++ [k] := by
  induction l with
  | nil => simp [insertTween]
  | cons hd rest ih =>
    rcases hd with ⟨a, m, old⟩
    rw [insertTween]
    by_cases hm : a = k.1 ∧ m = k.2
    · rw [if_pos hm]
      obtain ⟨h1, h2⟩ := hm
      subst h1
      subst h2
      have hk : (k.1, k.2) = k := rfl
      simp [hk]
    · rw [if_neg hm]
      have hne : (a, m) ≠ k := fun he => hm (by rw [← he]; exact ⟨rfl, rfl⟩)
      have hne2 : ¬ k = (a, m) := fun he => hne he.symm
      rw [twKeys_cons, twKeys_cons, ih]
      by_cases hk : k ∈ twKeys rest
      · simp [hk, hne2]
      · simp [hk, hne2]

theorem mem_twKeys_insertTween (k : Nat × String) (tw : ActiveTween)
    (l : List (Nat × String × ActiveTween)) (x : Nat × String)
    (hx : x ∈ twKeys (insertTween k tw l)) : x ∈ twKeys l ∨ x = k := by
  rw [twKeys_insertTween] at hx
  split_ifs at hx with h
  · exact Or.inl hx
  · rcases List.mem_append.mp hx with h1 | h2
    · exact Or.inl h1
    · right
      simpa using h2

theorem nodup_twKeys_insertTween (k : Nat × String) (tw : ActiveTween)
    (l : List (Nat × String × ActiveTween)) (h : (twKeys l).Nodup) :
    (twKeys (insertTween k tw l)).Nodup := by
  rw [twKeys_insertTween]
  split_ifs with hk
  · exact h
  · refine List.Nodup.append h (List.nodup_singleton k) ?_
    intro a ha hb
    simp only [List.mem_singleton] at hb
    subst hb
    exact hk ha

theorem lookupTween_insertTween_self (k : Nat × String) (tw : ActiveTween)
    (l : List (Nat × String × ActiveTween)) :
    lookupTween k (insertTween k tw l) = some tw := by
  induction l with
  | nil => simp [insertTween, lookupTween]
  | cons hd rest ih =>
    rcases hd with ⟨a, m, old⟩
    by_cases hm : a = k.1 ∧ m = k.2
    · simp [insertTween, hm, lookupTween]
    · simp [insertTween, hm, lookupTween, ih]

theorem execCommand_tweens_cases (tl : ActiveTimeline) (s : GState) (c : TimedCommand) :
    (execCommand tl s c).tweens = s.tweens
    ∨ ∃ key tw, (execCommand tl s c).tweens = insertTween key tw s.tweens := by
  cases hk : c.kind
  case kScale =>
    left
    by_cases h : (resolveActor tl c.target).isSet = true <;>
      simp [execCommand, executeScale, hk, h]
  case kMorph =>
    by_cases ht : c.tweenSeconds > 0
    · by_cases h : (resolveActor tl c.target).isSet = true
      · cases hd : (resolveActor tl c.target).deref with
        | none => left; simp [execCommand, scheduleMorphTween, hk, ht, h, hd]
        | some afid =>
          right
          refine ⟨(afid, c.morphName),
            { actor := resolveActor tl c.target
              actorFormID := afid
              casterFormID := tl.casterFormID
              token := tl.token
              who := c.target
              morphName := c.morphName
              totalDelta := c.delta
              appliedSoFar := 0
              durationSeconds := c.tweenSeconds
              elapsedSeconds := 0
              touchedMarked := false }, ?_⟩
          simp [execCommand, scheduleMorphTween, hk, ht, h, hd]
      · left; simp [execCommand, scheduleMorphTween, hk, ht, h]
    · left
      by_cases h : (resolveActor tl c.target).isSet = true <;>
        simp [execCommand, executeMorphInstant, hk, ht, h]
  case kHide =>
    left
    simp [execCommand, hk]

theorem nodup_execCommand (tl : ActiveTimeline) (s : GState) (c : TimedCommand)
    (h : (twKeys s.tweens).Nodup) : (twKeys (execCommand tl s c).tweens).Nodup := by
  rcases execCommand_tweens_cases tl s c with he | ⟨key, tw, he⟩ <;> rw [he]
  · exact h
  · exact nodup_twKeys_insertTween key tw _ h

theorem nodup_execList (tl : ActiveTimeline) (cmds : List TimedCommand) :
    ∀ s : GState, (twKeys s.tweens).Nodup → (twKeys (execList tl s cmds).tweens).Nodup := by
  induction cmds with
  | nil => intro s h; exact h
  | cons c rest ih =>
    intro s h
    rw [execList]
    exact ih _ (nodup_execCommand tl s c h)

theorem nodup_stepTimeline (dt : ℚ) (s : GState) (tl : ActiveTimeline)
    (h : (twKeys s.tweens).Nodup) : (twKeys (stepTimeline dt s tl).1.tweens).Nodup := by
  by_cases htok : isTokenCurrent s tl.casterFormID tl.token = true
  · rw [stepTimeline, if_pos htok]
    simp only [runFrom_eq_execList]
    split_ifs <;> simpa using nodup_execList _ _ _ h
  · rw [stepTimeline, if_neg htok]
    exact h

theorem nodup_timelinePass (dt : ℚ) (l : List (Nat × ActiveTimeline)) :
    ∀ s0 : GState, (twKeys s0.tweens).Nodup →
      (twKeys (timelinePass dt s0 l).tweens).Nodup := by
  induction l with
  | nil => intro s0 h; exact h
  | cons q rest ih =>
    rcases q with ⟨fid, tl⟩
    intro s0 h
    rw [timelinePass]
    cases hr : (stepTimeline dt s0 tl).2 with
    | none =>
      simp only [hr]
      exact ih _ (nodup_stepTimeline dt s0 tl h)
    | some tl2 =>
      simp only [hr]
      exact ih _ (by simpa using nodup_stepTimeline dt s0 tl h)

theorem twKeys_append (a b : List (Nat × String × ActiveTween)) :
    twKeys (a ++ b) = twKeys a ++ twKeys b := by
  simp [twKeys]

theorem twKeys_tweenPass_sublist (dt : ℚ) (l : List (Nat × String × ActiveTween)) :
    ∀ s0 : GState,
      List.Sublist (twKeys (tweenPass dt s0 l).tweens) (twKeys s0.tweens ++ twKeys l) := by
  induction l with
  | nil =>
    intro s0
    rw [tweenPass]
    simp
  | cons q rest ih =>
    rcases q with ⟨afid, mn, tw⟩
    intro s0
    rw [tweenPass]
    cases hr : (stepTween dt s0 tw).2 with
    | none =>
      simp only [hr]
      have h1 := ih (stepTween dt s0 tw).1
      rw [stepTween_fst_tweens] at h1
      refine h1.trans ?_
      refine List.Sublist.append_left ?_ _
      simp [twKeys]
    | some tw2 =>
      simp only [hr]
      refine (ih _).trans ?_
      simp only [stepTween_fst_tweens, twKeys_append, twKeys_cons, twKeys_nil,
        List.append_assoc, List.singleton_append]
      exact List.Sublist.refl _

theorem nodup_updateTweens (dt : ℚ) (s : GState) (h : (twKeys s.tweens).Nodup) :
    (twKeys (updateTweens dt s).tweens).Nodup := by
  have hsub := twKeys_tweenPass_sublist dt s.tweens { s with tweens := [] }
  rw [updateTweens]
  refine List.Sublist.nodup ?_ h
  simpa [twKeys] using hsub

theorem nodup_update (dt : ℚ) (s : GState) (h : (twKeys s.tweens).Nodup) :
    (twKeys (update dt s).tweens).Nodup := by
  by_cases h0 : dt ≤ 0
  · rw [update, if_pos h0]; exact h
  · by_cases hbig : dt > kMaxDtSeconds
    · have hu : update dt s = updateTweens kMaxDtSeconds (updateTimelines kMaxDtSeconds s) := by
        simp [update, h0, hbig]
      rw [hu]
      refine nodup_updateTweens _ _ ?_
      rw [updateTimelines]
      exact nodup_timelinePass _ _ _ (by simpa using h)
    · have hu : update dt s = updateTweens dt (updateTimelines dt s) := by
        simp [update, h0, hbig]
      rw [hu]
      refine nodup_updateTweens _ _ ?_
      rw [updateTimelines]
      exact nodup_timelinePass _ _ _ (by simpa using h)

/-- Claim C6: the active-tween table holds at most one tween per
(entity identity, morphName) key — insertion under an existing key
replaces the stored tween unconditionally and preserves key uniqueness,
and key uniqueness is preserved by `StartTimeline`, `Update`, and
`CancelAndReset`. -/
theorem C6_at_most_one_tween_per_key (k : Nat × String) (tw : ActiveTween)
    (l : List (Nat × String × ActiveTween)) (s : GState)
    (caster target : ActorHandle) (fid : Nat) (cmds : List TimedCommand)
    (lg rc rt : Bool) (dt : ℚ)
    (hl : (twKeys l).Nodup) (hs : (twKeys s.tweens).Nodup) :
    lookupTween k (insertTween k tw l) = some tw
    ∧ (twKeys (insertTween k tw l)).Nodup
    ∧ (twKeys (startTimeline caster target fid cmds lg s).tweens).Nodup
    ∧ (twKeys (update dt s).tweens).Nodup
    ∧ (twKeys (cancelAndReset caster fid lg rc rt s).tweens).Nodup := by
  refine ⟨lookupTween_insertTween_self k tw l, nodup_twKeys_insertTween k tw l hl, ?_, ?_, ?_⟩
  · rw [startTimeline_tweens]
    exact hs
  · exact nodup_update dt s hs
  · rw [cancelAndReset_tweens]
    refine List.Sublist.nodup ?_ hs
    exact List.Sublist.map _ (List.filter_sublist _)

/-- Claim C6 witness: concrete instantiation replacing the live tween
stored under key (42, "Belly"). -/
theorem C6_witness :
    ((twKeys [(42, "Belly", c3Tween)]).Nodup ∧ (twKeys c3St.tweens).Nodup)
    ∧ (lookupTween (42, "Belly") (insertTween (42, "Belly") deadTw [(42, "Belly", c3Tween)])
          = some deadTw
      ∧ (twKeys (insertTween (42, "Belly") deadTw [(42, "Belly", c3Tween)])).Nodup
      ∧ (twKeys (startTimeline hCaster7 hTarget9 7 [] false c3St).tweens).Nodup
      ∧ (twKeys (update (1/8) c3St).tweens).Nodup
      ∧ (twKeys (cancelAndReset hCaster7 7 false false false c3St).tweens).Nodup) :=
  ⟨⟨by decide, by decide⟩,
    C6_at_most_one_tween_per_key (42, "Belly") deadTw [(42, "Belly", c3Tween)] c3St
      hCaster7 hTarget9 7 [] false false false (1/8) (by decide) (by decide)⟩

end FBSpec

namespace FBSpec

/-! ### Claim C8 -/

theorem mem_insertOnce (xs : List String) (x n : String) :
    n ∈ insertOnce xs x ↔ n ∈ xs ∨ n = x := by
  unfold insertOnce
  split_ifs with h
  · constructor
    · exact Or.inl
    · rintro (h1 | rfl)
      · exact h1
      · exact h
  · simp [List.mem_append]

theorem mem_foldl_insertOnce (ks : List String) :
    ∀ (xs : List String) (n : String),
      n ∈ List.foldl insertOnce xs ks ↔ n ∈ xs ∨ n ∈ ks := by
  induction ks with
  | nil => intro xs n; simp
  | cons k ks ih =>
    intro xs n
    rw [List.foldl_cons, ih, mem_insertOnce]
    simp [List.mem_cons]
    tauto

theorem execCommand_getState (tl : ActiveTimeline) (s : GState) (c : TimedCommand) :
    getState (execCommand tl s c) tl.casterFormID
      = touchOf tl c (getState s tl.casterFormID) := by
  cases hk : c.kind
  case kScale =>
    cases htg : c.target <;> by_cases hs : (resolveActor tl c.target).isSet = true <;>
      simp_all [execCommand, executeScale, touchOf, markTouchedScale, getState, setState, emit]
  case kMorph =>
    by_cases htw : c.tweenSeconds > 0
    · cases htg : c.target <;> by_cases hs : (resolveActor tl c.target).isSet = true <;>
        cases hd : (resolveActor tl c.target).deref <;>
          simp_all [execCommand, scheduleMorphTween, touchOf, getState, setState]
    · have htw2 : ¬ 0 < c.tweenSeconds := htw
      cases htg : c.target <;> by_cases hs : (resolveActor tl c.target).isSet = true <;>
        simp_all [execCommand, executeMorphInstant, touchOf, markTouchedMorph,
          getState, setState, emit, if_neg htw2]
  case kHide =>
    cases htg : c.target <;> simp_all [execCommand, touchOf]

theorem execCommand_trace (tl : ActiveTimeline) (s : GState) (c : TimedCommand) :
    (execCommand tl s c).trace = s.trace ++ emitsOf tl c := by
  cases hk : c.kind
  case kScale =>
    by_cases hs : (resolveActor tl c.target).isSet = true <;>
      simp_all [execCommand, executeScale, emitsOf, emit]
  case kMorph =>
    by_cases htw : c.tweenSeconds > 0
    · by_cases hs : (resolveActor tl c.target).isSet = true <;>
        cases hd : (resolveActor tl c.target).deref <;>
          simp_all [execCommand, scheduleMorphTween, emitsOf]
    · have htw2 : ¬ 0 < c.tweenSeconds := htw
      by_cases hs : (resolveActor tl c.target).isSet = true <;>
        simp_all [execCommand, executeMorphInstant, emitsOf, emit, if_neg htw2]
  case kHide =>
    simp_all [execCommand, emitsOf]

theorem execList_getState (tl : ActiveTimeline) (cmds : List TimedCommand) :
    ∀ s : GState,
      getState (execList tl s cmds) tl.casterFormID
        = cmds.foldl (fun st c => touchOf tl c st) (getState s tl.casterFormID) := by
  induction cmds with
  | nil => intro s; rfl
  | cons c rest ih =>
    intro s
    rw [execList, List.foldl_cons, ih, execCommand_getState]

theorem execList_trace (tl : ActiveTimeline) (cmds : List TimedCommand) :
    ∀ s : GState, (execList tl s cmds).trace = s.trace ++ emitsAll tl cmds := by
  induction cmds with
  | nil => intro s; simp [execList, emitsAll]
  | cons c rest ih =>
    intro s
    rw [execList, emitsAll, ih, execCommand_trace]
    simp

theorem touchOf_casterScale (tl : ActiveTimeline) (c : TimedCommand) (st : ActorRuntimeState) :
    (touchOf tl c st).casterTouchedScale
      = if c.kind = CommandKind.kScale ∧ c.target = TargetKind.kCaster
            ∧ (resolveActor tl c.target).isSet = true
        then insertOnce st.casterTouchedScale c.nodeKey
        else st.casterTouchedScale := by
  cases hk : c.kind <;> cases htg : c.target <;>
    by_cases hs : (resolveActor tl c.target).isSet = true <;>
      simp [touchOf, hk, htg, hs] <;>
      (try split_ifs) <;> (try simp_all)

theorem touchOf_targetScale (tl : ActiveTimeline) (c : TimedCommand) (st : ActorRuntimeState) :
    (touchOf tl c st).targetTouchedScale
      = if c.kind = CommandKind.kScale ∧ c.target = TargetKind.kTarget
            ∧ (resolveActor tl c.target).isSet = true
        then insertOnce st.targetTouchedScale c.nodeKey
        else st.targetTouchedScale := by
  cases hk : c.kind <;> cases htg : c.target <;>
    by_cases hs : (resolveActor tl c.target).isSet = true <;>
      simp [touchOf, hk, htg, hs] <;>
      (try split_ifs) <;> (try simp_all)

theorem touchOf_casterMorph (tl : ActiveTimeline) (c : TimedCommand) (st : ActorRuntimeState) :
    (touchOf tl c st).casterTouchedMorph
      = (st.casterTouchedMorph
        || decide (c.kind = CommandKind.kMorph ∧ c.target = TargetKind.kCaster
            ∧ ¬ c.tweenSeconds > 0 ∧ (resolveActor tl c.target).isSet = true)) := by
  cases hk : c.kind <;> cases htg : c.target <;>
    by_cases hs : (resolveActor tl c.target).isSet = true <;>
      simp [touchOf, hk, htg, hs] <;>
      (try split_ifs) <;> (try simp_all)

theorem touchOf_targetMorph (tl : ActiveTimeline) (c : TimedCommand) (st : ActorRuntimeState) :
    (touchOf tl c st).targetTouchedMorph
      = (st.targetTouchedMorph
        || decide (c.kind = CommandKind.kMorph ∧ c.target = TargetKind.kTarget
            ∧ ¬ c.tweenSeconds > 0 ∧ (resolveActor tl c.target).isSet = true)) := by
  cases hk : c.kind <;> cases htg : c.target <;>
    by_cases hs : (resolveActor tl c.target).isSet = true <;>
      simp [touchOf, hk, htg, hs] <;>
      (try split_ifs) <;> (try simp_all)

theorem touchOf_token (tl : ActiveTimeline) (c : TimedCommand) (st : ActorRuntimeState) :
    (touchOf tl c st).token = st.token := by
  cases hk : c.kind <;> cases htg : c.target <;>
    by_cases hs : (resolveActor tl c.target).isSet = true <;>
      simp [touchOf, hk, htg, hs] <;>
      (try split_ifs) <;> (try simp_all)

theorem touchOf_lastTarget (tl : ActiveTimeline) (c : TimedCommand) (st : ActorRuntimeState) :
    (touchOf tl c st).lastTarget = st.lastTarget := by
  cases hk : c.kind <;> cases htg : c.target <;>
    by_cases hs : (resolveActor tl c.target).isSet = true <;>
      simp [touchOf, hk, htg, hs] <;>
      (try split_ifs) <;> (try simp_all)

theorem dueScaleKeys_cons (tl : ActiveTimeline) (who : TargetKind) (c : TimedCommand)
    (rest : List TimedCommand) :
    dueScaleKeys tl who (c :: rest)
      = if c.kind = CommandKind.kScale ∧ c.target = who
            ∧ (resolveActor tl who).isSet = true
        then c.nodeKey :: dueScaleKeys tl who rest
        else dueScaleKeys tl who rest := by
  unfold dueScaleKeys
  by_cases hs : (resolveActor tl who).isSet = true <;>
    by_cases hc : c.kind = CommandKind.kScale ∧ c.target = who <;>
      simp [hs, hc, List.filter_cons]

theorem wroteInstantMorph_cons (tl : ActiveTimeline) (who : TargetKind) (c : TimedCommand)
    (rest : List TimedCommand) :
    wroteInstantMorph tl who (c :: rest)
      = (decide (c.kind = CommandKind.kMorph ∧ c.target = who ∧ ¬ c.tweenSeconds > 0
            ∧ (resolveActor tl who).isSet = true)
        || wroteInstantMorph tl who rest) := by
  unfold wroteInstantMorph
  by_cases hs : (resolveActor tl who).isSet = true <;>
    simp [hs, List.any_cons, Bool.and_or_distrib_left, and_assoc]

theorem touchFold_casterScale (tl : ActiveTimeline) (cmds : List TimedCommand) :
    ∀ st : ActorRuntimeState,
      (cmds.foldl (fun st c => touchOf tl c st) st).casterTouchedScale
        = List.foldl insertOnce st.casterTouchedScale
            (dueScaleKeys tl TargetKind.kCaster cmds) := by
  induction cmds with
  | nil => intro st; simp [dueScaleKeys]
  | cons c rest ih =>
    intro st
    rw [List.foldl_cons, ih, touchOf_casterScale, dueScaleKeys_cons]
    by_cases hc : c.kind = CommandKind.kScale ∧ c.target = TargetKind.kCaster
        ∧ (resolveActor tl c.target).isSet = true
    · obtain ⟨h1, h2, h3⟩ := hc
      rw [h2] at h3
      simp [h1, h2, h3]
    · have hc2 : ¬ (c.kind = CommandKind.kScale ∧ c.target = TargetKind.kCaster
          ∧ (resolveActor tl TargetKind.kCaster).isSet = true) := by
        intro h
        obtain ⟨g1, g2, g3⟩ := h
        exact hc ⟨g1, g2, by rw [g2]; exact g3⟩
      simp [hc, hc2]

theorem touchFold_targetScale (tl : ActiveTimeline) (cmds : List TimedCommand) :
    ∀ st : ActorRuntimeState,
      (cmds.foldl (fun st c => touchOf tl c st) st).targetTouchedScale
        = List.foldl insertOnce st.targetTouchedScale
            (dueScaleKeys tl TargetKind.kTarget cmds) := by
  induction cmds with
  | nil => intro st; simp [dueScaleKeys]
  | cons c rest ih =>
    intro st
    rw [List.foldl_cons, ih, touchOf_targetScale, dueScaleKeys_cons]
    by_cases hc : c.kind = CommandKind.kScale ∧ c.target = TargetKind.kTarget
        ∧ (resolveActor tl c.target).isSet = true
    · obtain ⟨h1, h2, h3⟩ := hc
      rw [h2] at h3
      simp [h1, h2, h3]
    · have hc2 : ¬ (c.kind = CommandKind.kScale ∧ c.target = TargetKind.kTarget
          ∧ (resolveActor tl TargetKind.kTarget).isSet = true) := by
        intro h
        obtain ⟨g1, g2, g3⟩ := h
        exact hc ⟨g1, g2, by rw [g2]; exact g3⟩
      simp [hc, hc2]

theorem touchFold_casterMorph (tl : ActiveTimeline) (cmds : List TimedCommand) :
    ∀ st : ActorRuntimeState,
      (cmds.foldl (fun st c => touchOf tl c st) st).casterTouchedMorph
        = (st.casterTouchedMorph || wroteInstantMorph tl TargetKind.kCaster cmds) := by
  induction cmds with
  | nil => intro st; simp [wroteInstantMorph]
  | cons c rest ih =>
    intro st
    rw [List.foldl_cons, ih, touchOf_casterMorph, wroteInstantMorph_cons, ← Bool.or_assoc]
    by_cases htg : c.target = TargetKind.kCaster <;> simp [htg]

theorem touchFold_targetMorph (tl : ActiveTimeline) (cmds : List TimedCommand) :
    ∀ st : ActorRuntimeState,
      (cmds.foldl (fun st c => touchOf tl c st) st).targetTouchedMorph
        = (st.targetTouchedMorph || wroteInstantMorph tl TargetKind.kTarget cmds) := by
  induction cmds with
  | nil => intro st; simp [wroteInstantMorph]
  | cons c rest ih =>
    intro st
    rw [List.foldl_cons, ih, touchOf_targetMorph, wroteInstantMorph_cons, ← Bool.or_assoc]
    by_cases htg : c.target = TargetKind.kTarget <;> simp [htg]

theorem touchFold_token (tl : ActiveTimeline) (cmds : List TimedCommand) :
    ∀ st : ActorRuntimeState,
      (cmds.foldl (fun st c => touchOf tl c st) st).token = st.token := by
  induction cmds with
  | nil => intro st; rfl
  | cons c rest ih =>
    intro st
    rw [List.foldl_cons, ih, touchOf_token]

theorem touchFold_lastTarget (tl : ActiveTimeline) (cmds : List TimedCommand) :
    ∀ st : ActorRuntimeState,
      (cmds.foldl (fun st c => touchOf tl c st) st).lastTarget = st.lastTarget := by
  induction cmds with
  | nil => intro st; rfl
  | cons c rest ih =>
    intro st
    rw [List.foldl_cons, ih, touchOf_lastTarget]

end FBSpec

namespace FBSpec

/-- Claim C8 counterexample: the touched record cannot contain the set
of morph names written — it stores only a per-role boolean. Running one
timeline that writes morph "Belly" and another that writes morph "Nose"
to completion leaves byte-identical runtime records although the sets
of morph names the commands wrote differ. -/
theorem C8_counterexample :
    getState c8RunA 7 = getState c8RunB 7
    ∧ morphCallNames c8RunA.trace = ["Belly"]
    ∧ morphCallNames c8RunB.trace = ["Nose"]
    ∧ morphCallNames c8RunA.trace ≠ morphCallNames c8RunB.trace := by
  with_unfolding_all decide

/-- Claim C8 (amended): executing a command batch extends, per role, the
touched scale set with exactly the nodeKeys of that role's scale
commands whose resolved handle is set — precisely the commands that emit
a scale mutator call — and sets the per-role touched-morph boolean iff
some instant morph command with a set handle executed for that role (the
record keeps a flag, not the morph names); the token and lastTarget are
untouched, the appended trace is exactly the calls of the executed
commands, and a command whose resolved handle is empty contributes no
touched entry and no call. -/
theorem C8_touched_record (tl : ActiveTimeline) (cmds : List TimedCommand) (s : GState) :
    (getState (execList tl s cmds) tl.casterFormID).casterTouchedScale
        = List.foldl insertOnce (getState s tl.casterFormID).casterTouchedScale
            (dueScaleKeys tl TargetKind.kCaster cmds)
    ∧ (getState (execList tl s cmds) tl.casterFormID).targetTouchedScale
        = List.foldl insertOnce (getState s tl.casterFormID).targetTouchedScale
            (dueScaleKeys tl TargetKind.kTarget cmds)
    ∧ (getState (execList tl s cmds) tl.casterFormID).casterTouchedMorph
        = ((getState s tl.casterFormID).casterTouchedMorph
            || wroteInstantMorph tl TargetKind.kCaster cmds)
    ∧ (getState (execList tl s cmds) tl.casterFormID).targetTouchedMorph
        = ((getState s tl.casterFormID).targetTouchedMorph
            || wroteInstantMorph tl TargetKind.kTarget cmds)
    ∧ (getState (execList tl s cmds) tl.casterFormID).token
        = (getState s tl.casterFormID).token
    ∧ (getState (execList tl s cmds) tl.casterFormID).lastTarget
        = (getState s tl.casterFormID).lastTarget
    ∧ (execList tl s cmds).trace = s.trace ++ emitsAll tl cmds
    ∧ (∀ n, n ∈ (getState (execList tl s cmds) tl.casterFormID).casterTouchedScale
        ↔ (n ∈ (getState s tl.casterFormID).casterTouchedScale
            ∨ n ∈ dueScaleKeys tl TargetKind.kCaster cmds))
    ∧ (∀ n, n ∈ (getState (execList tl s cmds) tl.casterFormID).targetTouchedScale
        ↔ (n ∈ (getState s tl.casterFormID).targetTouchedScale
            ∨ n ∈ dueScaleKeys tl TargetKind.kTarget cmds)) := by
  have hg := execList_getState tl cmds s
  refine ⟨?_, ?_, ?_, ?_, ?_, ?_, execList_trace tl cmds s, ?_, ?_⟩
  · rw [hg, touchFold_casterScale]
  · rw [hg, touchFold_targetScale]
  · rw [hg, touchFold_casterMorph]
  · rw [hg, touchFold_targetMorph]
  · rw [hg, touchFold_token]
  · rw [hg, touchFold_lastTarget]
  · intro n
    rw [hg, touchFold_casterScale, mem_foldl_insertOnce]
  · intro n
    rw [hg, touchFold_targetScale, mem_foldl_insertOnce]

end FBSpec
